import Mathlib

/-!
# BinanceMarketData: the candle series kept by `App.js`

A shallow embedding of the state-updating code of `src/src/App.js`:

* `fetchHistoricalData` (lines 34-58): the snapshot fetch and its `setChartData` updater,
* `connectWebSocket` (lines 61-97): the stream message handler and its `setChartData` updater,
* `handleCoinChange`, `handleIntervalChange` and the mount effect (lines 100-140),
* `generateChartData` (lines 114-128): the 20 minute window filter.

Times are epoch milliseconds and are modelled as `Int`.  Prices are the results of
`parseFloat` on the text the exchange sends; they are modelled by their exact decimal
value (`JsNumber`), without rounding to binary64: no statement below depends on the
numeric value of a price, only on whether it is `NaN`.
-/

namespace BinanceMarketData

/-! ## Numbers and `parseFloat` -/

/-- Result of `parseFloat`: `NaN`, a signed infinity, or the decimal `mant * 10 ^ exp10`
(kept with no trailing zero digit in `mant`, and `exp10 = 0` when `mant = 0`). -/
inductive JsNumber where
  | nan : JsNumber
  | infinity (negative : Bool) : JsNumber
  | dec (mant : Int) (exp10 : Int) : JsNumber
  deriving DecidableEq

/-- White space and line terminators removed by `TrimString` at the start of the input. -/
def isJsWhiteSpace (c : Char) : Bool :=
  let n := c.toNat
  n == 0x09 || n == 0x0A || n == 0x0B || n == 0x0C || n == 0x0D || n == 0x20 ||
  n == 0xA0 || n == 0x1680 || (0x2000 ≤ n && n ≤ 0x200A) || n == 0x2028 ||
  n == 0x2029 || n == 0x202F || n == 0x205F || n == 0x3000 || n == 0xFEFF

/-- Drop the leading white space of the input. -/
def skipWhiteSpace : List Char → List Char
  | [] => []
  | c :: cs => if isJsWhiteSpace c then skipWhiteSpace cs else c :: cs

/-- Value of a run of decimal digits read as a natural number. -/
def digitsValue (ds : List Char) : Nat :=
  ds.foldl (fun acc d => 10 * acc + (d.toNat - 48)) 0

/-- Value of the `ExponentPart` at the head of the input, `0` when there is none
(an `e` that is not followed by an optionally signed digit is not part of the literal). -/
def exponentPart : List Char → Int
  | [] => 0
  | e :: rest =>
    if e == 'e' || e == 'E' then
      match rest with
      | '-' :: r =>
        let ds := (r.span Char.isDigit).1
        if ds.isEmpty then 0 else - (digitsValue ds : Int)
      | '+' :: r => (digitsValue (r.span Char.isDigit).1 : Int)
      | r => (digitsValue (r.span Char.isDigit).1 : Int)
    else 0

/-- Decimal number with the given sign, digits and power of ten, in normal form. -/
def mkDecimal (negative : Bool) (digits : List Char) (exp10 : Int) : JsNumber :=
  let rev := digits.reverse
  let zeros := (rev.takeWhile (· == '0')).length
  let mant := digitsValue (rev.dropWhile (· == '0')).reverse
  if mant = 0 then JsNumber.dec 0 0
  else JsNumber.dec (if negative then - (mant : Int) else mant) (exp10 + zeros)

/-- The unsigned part of a `StrDecimalLiteral`: `Infinity`, or digits with an optional
fraction and exponent.  `NaN` when no prefix of the input is such a literal. -/
def parseUnsigned (negative : Bool) (cs : List Char) : JsNumber :=
  if "Infinity".toList.isPrefixOf cs then JsNumber.infinity negative
  else
    let ip := cs.span Char.isDigit
    let fp : List Char × List Char :=
      match ip.2 with
      | '.' :: r => r.span Char.isDigit
      | r => ([], r)
    if ip.1.isEmpty && fp.1.isEmpty then JsNumber.nan
    else mkDecimal negative (ip.1 ++ fp.1) (exponentPart fp.2 - (fp.1.length : Int))

/-- The global `parseFloat` on a string: trims leading white space, reads the longest
prefix that is a `StrDecimalLiteral`, and returns `NaN` when there is none.  It never
throws. -/
def parseFloat (s : String) : JsNumber :=
  match skipWhiteSpace s.toList with
  | '-' :: r => parseUnsigned true r
  | '+' :: r => parseUnsigned false r
  | r => parseUnsigned false r

/-! ## Data model -/

/-- The three keys of `chartData` (the values of `symbols`, line 14). -/
inductive Sym where
  | ethusdt : Sym
  | bnbusdt : Sym
  | dotusdt : Sym
  deriving DecidableEq

/-- The entries of `intervals` (line 19). -/
inductive Interval where
  | m1 : Interval
  | m3 : Interval
  | m5 : Interval
  deriving DecidableEq

/-- One candle as stored in `chartData`. -/
structure Candle where
  time : Int
  «open» : JsNumber
  high : JsNumber
  low : JsNumber
  close : JsNumber
  deriving DecidableEq

/-- The `chartData` state (line 24): one series per symbol. -/
structure ChartData where
  ethusdt : List Candle
  bnbusdt : List Candle
  dotusdt : List Candle
  deriving DecidableEq

/-- Initial value of `chartData` (lines 24-28). -/
def ChartData.initial : ChartData := ⟨[], [], []⟩

/-- Property read `prevData[symbol]`. -/
def ChartData.get (d : ChartData) : Sym → List Candle
  | Sym.ethusdt => d.ethusdt
  | Sym.bnbusdt => d.bnbusdt
  | Sym.dotusdt => d.dotusdt

/-- Object spread with one key replaced: `{ ...prevData, [symbol]: series }`. -/
def ChartData.set (d : ChartData) (symbol : Sym) (series : List Candle) : ChartData :=
  match symbol with
  | Sym.ethusdt => { d with ethusdt := series }
  | Sym.bnbusdt => { d with bnbusdt := series }
  | Sym.dotusdt => { d with dotusdt := series }

/-- `Array.prototype.slice(start)` with the end omitted: a negative `start` counts from
the end of the array, and the start index is clamped to `0 .. length`. -/
def slice {α : Type} (xs : List α) (start : Int) : List α :=
  let len : Int := xs.length
  let k : Int := if start < 0 then max (len + start) 0 else min start len
  xs.drop k.toNat

/-! ## The stream message handler (lines 68-88) -/

/-- The `k` record of a stream message: `t` is a number, `o h l c` are text. -/
structure KlineMsg where
  t : Int
  o : String
  h : String
  l : String
  c : String
  deriving DecidableEq

/-- What `event.data` holds: text that `JSON.parse` rejects or that has no `k` record
(lines 69-70 throw), or a message with its `k` record. -/
inductive Payload where
  | malformed : Payload
  | kline (k : KlineMsg) : Payload
  deriving DecidableEq

/-- The `newCandle` built in lines 72-78. -/
def newCandle (k : KlineMsg) : Candle :=
  { time := k.t
    «open» := parseFloat k.o
    high := parseFloat k.h
    low := parseFloat k.l
    close := parseFloat k.c }

/-- The new series of line 82: `[...prevData[symbol], newCandle].slice(-200)`. -/
def mergeTick (series : List Candle) (candle : Candle) : List Candle :=
  slice (series ++ [candle]) (-200)

/-- The `setChartData` updater of lines 81-87. -/
def tickUpdater (symbol : Sym) (candle : Candle) (prevData : ChartData) : ChartData :=
  prevData.set symbol (mergeTick (prevData.get symbol) candle)

/-- The `onmessage` handler of the connection opened for `symbol`: when lines 69-70 throw,
the state is not updated. -/
def onmessage (symbol : Sym) (payload : Payload) (chartData : ChartData) : ChartData :=
  match payload with
  | Payload.malformed => chartData
  | Payload.kline k => tickUpdater symbol (newCandle k) chartData

/-! ## The snapshot fetch (lines 34-58) -/

/-- One element of the response array; only positions 0 to 4 are read. -/
structure KlineRow where
  item0 : Int
  item1 : String
  item2 : String
  item3 : String
  item4 : String
  deriving DecidableEq

/-- How the two awaited steps of lines 39-40 end, and what `data` is. -/
inductive FetchResult where
  /-- The promise of `fetch` rejects (transport failure). -/
  | networkError : FetchResult
  /-- The promise of `response.json()` rejects (the body is not JSON). -/
  | invalidJson : FetchResult
  /-- The body is JSON but not an array, such as the error object of a non-success
  response: `data.map` is not a function and line 42 throws. -/
  | notAnArray : FetchResult
  /-- The body is an array of kline records. -/
  | rows (data : List KlineRow) : FetchResult
  deriving DecidableEq

/-- The mapping of lines 42-48. -/
def formatRow (item : KlineRow) : Candle :=
  { time := item.item0
    «open» := parseFloat item.item1
    high := parseFloat item.item2
    low := parseFloat item.item3
    close := parseFloat item.item4 }

/-- The `formattedData` of line 42. -/
def formattedData (data : List KlineRow) : List Candle :=
  data.map formatRow

/-- The `setChartData` updater of lines 51-54. -/
def snapshotUpdater (symbol : Sym) (formatted : List Candle) (prevData : ChartData) :
    ChartData :=
  prevData.set symbol formatted

/-- The effect of `fetchHistoricalData(symbol, interval)` on `chartData` once its awaited
steps have ended with `result`: every exception raised inside the `try` is caught and
logged (lines 55-57), leaving the state as it was. -/
def fetchHistoricalData (symbol : Sym) (result : FetchResult) (chartData : ChartData) :
    ChartData :=
  match result with
  | FetchResult.networkError => chartData
  | FetchResult.invalidJson => chartData
  | FetchResult.notAnArray => chartData
  | FetchResult.rows data => snapshotUpdater symbol (formattedData data) chartData

/-! ## The window filter (lines 114-128) -/

/-- One point handed to the chart (lines 121-127). -/
structure Bar where
  x : Int
  o : JsNumber
  h : JsNumber
  l : JsNumber
  c : JsNumber
  deriving DecidableEq

/-- The `filteredData` of line 118, with `now` the value of `Date.now()`. -/
def filteredData (data : List Candle) (now : Int) : List Candle :=
  data.filter (fun candle => decide (now - candle.time ≤ 20 * 60 * 1000))

/-- The function `generateChartData` (lines 114-128). -/
def generateChartData (data : List Candle) (now : Int) : List Bar :=
  (filteredData data now).map
    (fun candle =>
      { x := candle.time, o := candle.«open», h := candle.high, l := candle.low,
        c := candle.close })

/-! ## Properties of a series -/

/-- Time values strictly increase by position: every earlier entry has a smaller time
than every later one (ascending, no duplicate time). -/
def strictlyIncreasing (series : List Candle) : Prop :=
  (series.map Candle.time).Pairwise (· < ·)

instance decidableStrictlyIncreasing (series : List Candle) :
    Decidable (strictlyIncreasing series) := by
  unfold strictlyIncreasing
  infer_instance

/-! ## Sequences of updates of `chartData` -/

/-- One update of `chartData`: a stream message handled by the connection opened for
`symbol`, or the end of a snapshot fetch issued for `symbol`. -/
inductive Update where
  | tick (symbol : Sym) (payload : Payload) : Update
  | snapshot (symbol : Sym) (result : FetchResult) : Update
  deriving DecidableEq

/-- Effect of one update on `chartData`. -/
def applyUpdate (chartData : ChartData) : Update → ChartData
  | Update.tick symbol payload => onmessage symbol payload chartData
  | Update.snapshot symbol result => fetchHistoricalData symbol result chartData

/-- Effect of a sequence of updates, applied in arrival order. -/
def runUpdates (chartData : ChartData) (updates : List Update) : ChartData :=
  updates.foldl applyUpdate chartData

/-- The update arrives in time order: a tick is later than the last entry of the series
it is merged into (if any), and the records of a snapshot are strictly increasing in
time. -/
def inOrder (chartData : ChartData) : Update → Bool
  | Update.tick symbol (Payload.kline k) =>
    match (chartData.get symbol).getLast? with
    | none => true
    | some last => decide (last.time < k.t)
  | Update.tick _ Payload.malformed => true
  | Update.snapshot _ (FetchResult.rows data) => decide (strictlyIncreasing (formattedData data))
  | Update.snapshot _ _ => true

/-- Every update of the sequence arrives in time order with respect to the state it is
applied to. -/
def allInOrder (chartData : ChartData) : List Update → Bool
  | [] => true
  | u :: us => inOrder chartData u && allInOrder (applyUpdate chartData u) us

/-- The snapshot response respects the `limit=200` of the request (line 39). -/
def withinLimit : Update → Bool
  | Update.snapshot _ (FetchResult.rows data) => decide (data.length ≤ 200)
  | _ => true

/-! ## Target selection, connections and pending fetches (lines 61-111, 131-140)

Each target selection (the mount effect, `handleCoinChange`, `handleIntervalChange`) calls
`fetchHistoricalData` and `connectWebSocket`.  The code keeps no counter of selections;
the `generation` fields below are bookkeeping added to name which selection a pending
fetch or a connection belongs to.  `connectWebSocket` closes `ws.current` before it
replaces it, and a closed `WebSocket` fires no further `message` event, so the only
connection whose handler can run is the one held in `ws`. -/

/-- The connection held in `ws.current`, with the `symbol` its handler closes over. -/
structure Connection where
  symbol : Sym
  interval : Interval
  generation : Nat
  deriving DecidableEq

/-- A call of `fetchHistoricalData` whose awaited steps have not ended yet. -/
structure PendingFetch where
  symbol : Sym
  interval : Interval
  generation : Nat
  deriving DecidableEq

/-- State of the component. -/
structure AppState where
  selectedSymbol : Sym
  selectedInterval : Interval
  chartData : ChartData
  ws : Option Connection
  generation : Nat
  pending : List PendingFetch
  deriving DecidableEq

/-- State before the mount effect runs (lines 22-29). -/
def AppState.initial : AppState :=
  { selectedSymbol := Sym.ethusdt
    selectedInterval := Interval.m1
    chartData := ChartData.initial
    ws := none
    generation := 0
    pending := [] }

/-- What can happen to the component. -/
inductive Event where
  /-- The mount effect (lines 131-134). -/
  | mount : Event
  /-- The user picks a coin (lines 100-104). -/
  | handleCoinChange (symbol : Sym) : Event
  /-- The user picks an interval (lines 107-111). -/
  | handleIntervalChange (interval : Interval) : Event
  /-- The awaited steps of the fetch issued in `generation` end with `result`. -/
  | fetchSettled (generation : Nat) (result : FetchResult) : Event
  /-- The connection opened in `generation` receives a message. -/
  | message (generation : Nat) (payload : Payload) : Event
  deriving DecidableEq

/-- The two calls shared by every target selection:
`fetchHistoricalData(symbol, interval); connectWebSocket(symbol, interval)`.
The fetch is issued and stays pending; the connection in `ws` is closed and replaced. -/
def selectTarget (s : AppState) (symbol : Sym) (interval : Interval) : AppState :=
  { s with
    generation := s.generation + 1
    pending := s.pending ++ [⟨symbol, interval, s.generation + 1⟩]
    ws := some ⟨symbol, interval, s.generation + 1⟩ }

/-- One step of the component. -/
def step (s : AppState) : Event → AppState
  | Event.mount => selectTarget s s.selectedSymbol s.selectedInterval
  | Event.handleCoinChange symbol =>
    selectTarget { s with selectedSymbol := symbol } symbol s.selectedInterval
  | Event.handleIntervalChange interval =>
    selectTarget { s with selectedInterval := interval } s.selectedSymbol interval
  | Event.fetchSettled generation result =>
    match s.pending.find? (fun p => p.generation == generation) with
    | none => s
    | some p =>
      { s with
        chartData := fetchHistoricalData p.symbol result s.chartData
        pending := s.pending.filter (fun q => q.generation != generation) }
  | Event.message generation payload =>
    match s.ws with
    | none => s
    | some conn =>
      if conn.generation = generation then
        { s with chartData := onmessage conn.symbol payload s.chartData }
      else s

/-- The state after a sequence of events, starting from `s`. -/
def run (s : AppState) (events : List Event) : AppState :=
  events.foldl step s

/-- Whether a fetch result is one of the three ways the `try` block throws. -/
def FetchResult.throws : FetchResult → Bool
  | FetchResult.rows _ => false
  | _ => true

/-- Whether some price field of the record is text that `parseFloat` maps to `NaN`. -/
def hasUnparsableField (item : KlineRow) : Bool :=
  parseFloat item.item1 == JsNumber.nan || parseFloat item.item2 == JsNumber.nan ||
  parseFloat item.item3 == JsNumber.nan || parseFloat item.item4 == JsNumber.nan

/-- The failed snapshot fetches as the specification lists them: a transport failure, a
response whose body is not a sequence of records, or a response containing a record
with a price field that cannot be parsed into a number. -/
def snapshotFails : FetchResult → Bool
  | FetchResult.rows data => data.any hasUnparsableField
  | _ => true

/-! ## Sample data used by the concrete checks -/

/-- Stream record of scenario 1 of the specification: time 1000, prices 10, 11, 9, 10.5. -/
def msgA : KlineMsg := ⟨1000, "10", "11", "9", "10.5"⟩

/-- Stream record of scenario 2: the same time as `msgA` with close 10.8. -/
def msgA2 : KlineMsg := ⟨1000, "10", "11", "9", "10.8"⟩

/-- Stream record at time 2000. -/
def msgB : KlineMsg := ⟨2000, "10.8", "11.2", "10.6", "11"⟩

/-- Stream record of scenario 3: time 1500, between `msgA` and `msgB`. -/
def msgLate : KlineMsg := ⟨1500, "10.1", "10.9", "10", "10.4"⟩

/-- Candle of `msgA`. -/
def candleA : Candle := newCandle msgA

/-- Candle of `msgA2`. -/
def tickA : Candle := newCandle msgA2

/-- Candle of `msgB`. -/
def candleB : Candle := newCandle msgB

/-- Candle of `msgLate`. -/
def tickLate : Candle := newCandle msgLate

/-- Snapshot record at time 1000. -/
def rowA : KlineRow := ⟨1000, "10", "11", "9", "10.5"⟩

/-- Snapshot record at time 3000 whose open price is not numeric text. -/
def rowBad : KlineRow := ⟨3000, "abc", "11", "9", "10.5"⟩

/-- Response of 201 records, one more than the requested limit. -/
def longResponse : List KlineRow :=
  (List.range 201).map (fun (i : Nat) => ⟨60000 * (i : Int), "1", "1", "1", "1"⟩)

/-- Chart data whose `ethusdt` series holds `candleA` and `candleB`. -/
def chartAB : ChartData := ⟨[candleA, candleB], [], []⟩

/-- Candle whose prices are all `1` at the given time. -/
def flatCandle (time : Int) : Candle :=
  { time := time, «open» := JsNumber.dec 1 0, high := JsNumber.dec 1 0,
    low := JsNumber.dec 1 0, close := JsNumber.dec 1 0 }

/-- Series of 200 one-minute candles at times 0, 60000, ..., 199 * 60000. -/
def fullSeries : List Candle :=
  (List.range 200).map (fun (i : Nat) => flatCandle (60000 * (i : Int)))

/-! ## Facts about `slice` and `mergeTick` -/

theorem slice_neg {α : Type} (xs : List α) (n : Nat) (hn : 0 < n) :
    slice xs (-(n : Int)) = xs.drop (xs.length - n) := by
  unfold slice
  have h : (-(n : Int)) < 0 := by omega
  simp only [h, if_true]
  congr 1
  omega

theorem mergeTick_eq_drop (series : List Candle) (candle : Candle) :
    mergeTick series candle = (series ++ [candle]).drop (series.length + 1 - 200) := by
  unfold mergeTick
  have := slice_neg (series ++ [candle]) 200 (by norm_num)
  simpa using this

theorem mergeTick_of_lt (series : List Candle) (candle : Candle)
    (h : series.length < 200) : mergeTick series candle = series ++ [candle] := by
  rw [mergeTick_eq_drop]
  have : series.length + 1 - 200 = 0 := by omega
  rw [this, List.drop_zero]

theorem mergeTick_eq_drop_append (series : List Candle) (candle : Candle) :
    mergeTick series candle = series.drop (series.length - 199) ++ [candle] := by
  rw [mergeTick_eq_drop]
  have : series.length + 1 - 200 = series.length - 199 := by omega
  rw [this, List.drop_append_of_le_length (by omega)]

theorem length_mergeTick (series : List Candle) (candle : Candle) :
    (mergeTick series candle).length = min (series.length + 1) 200 := by
  rw [mergeTick_eq_drop]
  simp
  omega

theorem length_mergeTick_le (series : List Candle) (candle : Candle) :
    (mergeTick series candle).length ≤ 200 := by
  rw [length_mergeTick]
  omega

theorem getLast?_drop_of_lt {α : Type} (xs : List α) (n : Nat) (h : n < xs.length) :
    (xs.drop n).getLast? = xs.getLast? := by
  induction xs generalizing n with
  | nil => simp at h
  | cons x xs ih =>
    cases n with
    | zero => simp
    | succ n =>
      have hn : n < xs.length := by simpa using h
      rw [List.drop_succ_cons, ih n hn]
      cases xs with
      | nil => simp at hn
      | cons y ys => simp [List.getLast?_cons_cons]

/-! ## The tick merge (claims C3, C4, C5, C9) -/

/-- Claim C3 (append with FIFO eviction).  For every series of length at most 200 that is
empty or whose last entry has a time strictly less than that of the tick, merging the tick
yields `existing ++ [tick]` when the existing length is below 200, and otherwise the
existing series without its first entry followed by the tick, of length 200. -/
theorem mergeTick_append_fifo (existing : List Candle) (tick : Candle)
    (hlen : existing.length ≤ 200)
    (_hnew : existing = [] ∨
      ∃ last, existing.getLast? = some last ∧ last.time < tick.time) :
    (existing.length < 200 → mergeTick existing tick = existing ++ [tick]) ∧
    (¬ existing.length < 200 →
      mergeTick existing tick = existing.tail ++ [tick] ∧
      (mergeTick existing tick).length = 200) := by
  refine ⟨mergeTick_of_lt existing tick, fun h => ?_⟩
  have h200 : existing.length = 200 := by omega
  refine ⟨?_, ?_⟩
  · rw [mergeTick_eq_drop_append, h200]
    simp
  · rw [length_mergeTick, h200]
    rfl

set_option maxRecDepth 100000 in
/-- Claim C3 at three inputs: `candleA` merged into the empty series (scenario 1),
`candleB` merged into `[candleA]`, and a later candle merged into the 200 entries of
`fullSeries` (scenario 4). -/
theorem mergeTick_append_fifo_witness :
    (([] : List Candle).length ≤ 200 ∧
      (([] : List Candle) = [] ∨
        ∃ last, ([] : List Candle).getLast? = some last ∧ last.time < candleA.time) ∧
      mergeTick [] candleA = [] ++ [candleA]) ∧
    ([candleA].length ≤ 200 ∧
      ([candleA] = [] ∨
        ∃ last, [candleA].getLast? = some last ∧ last.time < candleB.time) ∧
      mergeTick [candleA] candleB = [candleA] ++ [candleB]) ∧
    (fullSeries.length ≤ 200 ∧
      (fullSeries = [] ∨
        ∃ last, fullSeries.getLast? = some last ∧ last.time < (flatCandle 12000000).time) ∧
      mergeTick fullSeries (flatCandle 12000000) = fullSeries.tail ++ [flatCandle 12000000] ∧
      (mergeTick fullSeries (flatCandle 12000000)).length = 200) :=
  ⟨⟨by decide, Or.inl rfl,
      (mergeTick_append_fifo [] candleA (by decide) (Or.inl rfl)).1 (by decide)⟩,
    ⟨by decide, Or.inr ⟨candleA, rfl, by decide⟩,
      (mergeTick_append_fifo [candleA] candleB (by decide)
        (Or.inr ⟨candleA, rfl, by decide⟩)).1 (by decide)⟩,
    ⟨by decide, Or.inr ⟨flatCandle (60000 * 199), by decide, by decide⟩,
      (mergeTick_append_fifo fullSeries (flatCandle 12000000) (by decide)
        (Or.inr ⟨flatCandle (60000 * 199), by decide, by decide⟩)).2 (by decide)⟩⟩

/-- Claim C4 as stated fails: merging `tickA`, whose time equals that of the only entry
`candleA`, does not replace `candleA`; the series grows from one entry to two. -/
theorem mergeTick_same_time_not_replaced :
    [candleA].getLast? = some candleA ∧ tickA.time = candleA.time ∧
    mergeTick [candleA] tickA = [candleA, tickA] ∧
    mergeTick [candleA] tickA ≠ [candleA].dropLast ++ [tickA] ∧
    (mergeTick [candleA] tickA).length ≠ [candleA].length := by
  decide

/-- Claim C4, amended.  For every non-empty series and every tick whose time equals the
time of the last entry, merging the tick keeps that last entry and puts the tick after it:
the result is the last 199 entries of the series followed by the tick, its last entry is
the tick, the entry before it is the former last entry, and below 200 entries the whole
series is kept and the length grows by one. -/
theorem mergeTick_same_time_appends (series : List Candle) (tick last : Candle)
    (hlast : series.getLast? = some last) (_htime : tick.time = last.time) :
    mergeTick series tick = series.drop (series.length - 199) ++ [tick] ∧
    (mergeTick series tick).getLast? = some tick ∧
    (mergeTick series tick).dropLast.getLast? = some last ∧
    (series.length < 200 →
      mergeTick series tick = series ++ [tick] ∧
      (mergeTick series tick).length = series.length + 1) := by
  have hne : series ≠ [] := by
    intro h
    simp [h] at hlast
  have hpos : 0 < series.length := List.length_pos.mpr hne
  refine ⟨mergeTick_eq_drop_append series tick, ?_, ?_, fun h => ?_⟩
  · rw [mergeTick_eq_drop_append]
    simp
  · rw [mergeTick_eq_drop_append, List.dropLast_concat,
      getLast?_drop_of_lt series _ (by omega), hlast]
  · rw [mergeTick_of_lt series tick h]
    simp

/-- Claim C4, amended, at the input of scenario 2. -/
theorem mergeTick_same_time_appends_witness :
    [candleA].getLast? = some candleA ∧ tickA.time = candleA.time ∧
    mergeTick [candleA] tickA = [candleA] ++ [tickA] ∧
    (mergeTick [candleA] tickA).length = [candleA].length + 1 :=
  ⟨rfl, by decide,
    (mergeTick_same_time_appends [candleA] tickA candleA rfl (by decide)).2.2.2 (by decide)⟩

/-- Claim C5 as stated fails: merging `tickLate` (time 1500) into the series with times
1000 and 2000 does not return the series unchanged; the tick is appended. -/
theorem mergeTick_out_of_order_not_dropped :
    [candleA, candleB].getLast? = some candleB ∧ tickLate.time < candleB.time ∧
    mergeTick [candleA, candleB] tickLate = [candleA, candleB, tickLate] ∧
    mergeTick [candleA, candleB] tickLate ≠ [candleA, candleB] := by
  decide

/-- Claim C5, amended.  For every non-empty series and every tick whose time is strictly
less than the time of the last entry, merging the tick does not drop it: the result is the
last 199 entries of the series followed by the tick, it differs from the series, and its
times are no longer strictly increasing. -/
theorem mergeTick_out_of_order_appends (series : List Candle) (tick last : Candle)
    (hlast : series.getLast? = some last) (htime : tick.time < last.time) :
    mergeTick series tick = series.drop (series.length - 199) ++ [tick] ∧
    mergeTick series tick ≠ series ∧
    ¬ strictlyIncreasing (mergeTick series tick) := by
  have hne : series ≠ [] := by
    intro h
    simp [h] at hlast
  have hpos : 0 < series.length := List.length_pos.mpr hne
  have hlast2 : (series.drop (series.length - 199)).getLast? = some last := by
    rw [getLast?_drop_of_lt series _ (by omega), hlast]
  refine ⟨mergeTick_eq_drop_append series tick, ?_, ?_⟩
  · intro h
    have h1 : (mergeTick series tick).getLast? = some tick := by
      rw [mergeTick_eq_drop_append]
      simp
    rw [h, hlast] at h1
    have h2 : last = tick := Option.some.inj h1
    rw [h2] at htime
    exact lt_irrefl _ htime
  · intro h
    rw [mergeTick_eq_drop_append] at h
    unfold strictlyIncreasing at h
    rw [List.map_append, List.pairwise_append] at h
    have hmem : last ∈ series.drop (series.length - 199) :=
      List.mem_of_getLast?_eq_some hlast2
    have := h.2.2 last.time (List.mem_map_of_mem _ hmem) tick.time (by simp)
    omega

/-- Claim C5, amended, at the input of scenario 3. -/
theorem mergeTick_out_of_order_appends_witness :
    [candleA, candleB].getLast? = some candleB ∧ tickLate.time < candleB.time ∧
    mergeTick [candleA, candleB] tickLate ≠ [candleA, candleB] ∧
    ¬ strictlyIncreasing (mergeTick [candleA, candleB] tickLate) :=
  ⟨rfl, by decide,
    (mergeTick_out_of_order_appends [candleA, candleB] tickLate candleB rfl (by decide)).2⟩

/-- Claim C9 as stated fails: merging `candleA` into the empty series twice gives two
entries, while merging it once gives one. -/
theorem mergeTick_twice_differs :
    mergeTick [] candleA = [candleA] ∧
    mergeTick (mergeTick [] candleA) candleA = [candleA, candleA] ∧
    mergeTick (mergeTick [] candleA) candleA ≠ mergeTick [] candleA := by
  decide

/-- Claim C9, amended.  Merging the same tick twice in a row yields the series followed by
two copies of the tick, cut to its last 200 entries; for a series of fewer than 199
entries this is the once-merged series with the tick appended again, one entry longer
than, and so different from, the result of merging once. -/
theorem mergeTick_twice (series : List Candle) (tick : Candle) :
    mergeTick (mergeTick series tick) tick =
      (series ++ [tick, tick]).drop (series.length + 2 - 200) ∧
    (series.length < 199 →
      mergeTick (mergeTick series tick) tick = mergeTick series tick ++ [tick] ∧
      (mergeTick (mergeTick series tick) tick).length =
        (mergeTick series tick).length + 1 ∧
      mergeTick (mergeTick series tick) tick ≠ mergeTick series tick) := by
  constructor
  · rw [mergeTick_eq_drop (mergeTick series tick) tick, length_mergeTick,
      mergeTick_eq_drop series tick]
    have happ : series ++ [tick, tick] = (series ++ [tick]) ++ [tick] := by simp
    rw [happ]
    by_cases h : series.length + 1 ≤ 200
    · have e1 : series.length + 1 - 200 = 0 := by omega
      have e2 : min (series.length + 1) 200 + 1 - 200 = series.length + 2 - 200 := by omega
      rw [e1, e2, List.drop_zero]
    · have e2 : min (series.length + 1) 200 + 1 - 200 = 1 := by omega
      have hlen : (series ++ [tick]).length = series.length + 1 := by simp
      have hle : series.length + 1 - 200 ≤ (series ++ [tick]).length := by omega
      have hle1 : series.length + 2 - 200 ≤ (series ++ [tick]).length := by omega
      have hle2 : 1 ≤ ((series ++ [tick]).drop (series.length + 1 - 200)).length := by
        rw [List.length_drop]
        omega
      rw [e2, List.drop_append_of_le_length hle1, List.drop_append_of_le_length hle2,
        List.drop_drop]
      have e3 : series.length + 1 - 200 + 1 = series.length + 2 - 200 := by omega
      rw [e3]
  · intro h
    have h1 : mergeTick series tick = series ++ [tick] := mergeTick_of_lt series tick (by omega)
    have h2 : mergeTick (mergeTick series tick) tick = mergeTick series tick ++ [tick] :=
      mergeTick_of_lt _ tick (by rw [h1]; simp; omega)
    refine ⟨h2, by rw [h2]; simp, ?_⟩
    intro heq
    have := congrArg List.length heq
    rw [h2] at this
    simp at this

/-- Claim C9, amended, at the empty series. -/
theorem mergeTick_twice_witness :
    ([] : List Candle).length < 199 ∧
    mergeTick (mergeTick [] candleA) candleA = mergeTick [] candleA ++ [candleA] ∧
    (mergeTick (mergeTick [] candleA) candleA).length = (mergeTick [] candleA).length + 1 ∧
    mergeTick (mergeTick [] candleA) candleA ≠ mergeTick [] candleA :=
  ⟨by decide, (mergeTick_twice [] candleA).2 (by decide)⟩


/-! ## The window filter (claim C8) -/

/-- Claim C8 (window correctness).  For every series and every `now`, the filter step of
`generateChartData` returns exactly the entries with `now - time ≤ 1200000`: the result is
a subsequence of the series in its original order, an entry is in it exactly when it is in
the series and within the window, an entry within the window occurs as often as in the
series and an entry outside it does not occur, and filtering the result again with the
same `now` returns it unchanged.  The points handed to the chart are these entries, one
point each. -/
theorem filteredData_window (data : List Candle) (now : Int) :
    (filteredData data now).Sublist data ∧
    (∀ candle, candle ∈ filteredData data now ↔
      candle ∈ data ∧ now - candle.time ≤ 1200000) ∧
    (∀ candle, (filteredData data now).count candle =
      if now - candle.time ≤ 1200000 then data.count candle else 0) ∧
    filteredData (filteredData data now) now = filteredData data now ∧
    (generateChartData data now).map (fun bar => bar.x) =
      (filteredData data now).map Candle.time := by
  refine ⟨List.filter_sublist data, fun candle => ?_, fun candle => ?_, ?_, ?_⟩
  · simp [filteredData, List.mem_filter]
  · by_cases h : now - candle.time ≤ 1200000
    · rw [if_pos h]
      unfold filteredData
      rw [List.count_filter]
      simpa using h
    · rw [if_neg h, List.count_eq_zero]
      intro hmem
      simp [filteredData, List.mem_filter] at hmem
      omega
  · unfold filteredData
    rw [List.filter_filter]
    simp
  · simp [generateChartData]


/-! ## Facts about `chartData` and its updaters -/

theorem ChartData.get_set (d : ChartData) (symbol other : Sym) (series : List Candle) :
    (d.set symbol series).get other = if other = symbol then series else d.get other := by
  cases symbol <;> cases other <;> simp [ChartData.set, ChartData.get]

theorem ChartData.get_set_self (d : ChartData) (symbol : Sym) (series : List Candle) :
    (d.set symbol series).get symbol = series := by
  rw [ChartData.get_set, if_pos rfl]

theorem ChartData.get_set_of_ne (d : ChartData) (symbol other : Sym) (series : List Candle)
    (h : other ≠ symbol) : (d.set symbol series).get other = d.get other := by
  rw [ChartData.get_set, if_neg h]

theorem time_le_last_of_strictlyIncreasing (series : List Candle) (last : Candle)
    (hs : strictlyIncreasing series) (hlast : series.getLast? = some last) :
    ∀ candle ∈ series, candle.time ≤ last.time := by
  intro candle hmem
  have hsplit : series = series.dropLast ++ [last] :=
    (List.dropLast_append_getLast? last hlast).symm
  rw [hsplit] at hmem
  rcases List.mem_append.mp hmem with h | h
  · unfold strictlyIncreasing at hs
    rw [hsplit, List.map_append, List.pairwise_append] at hs
    exact le_of_lt (hs.2.2 candle.time (List.mem_map_of_mem _ h) last.time (by simp))
  · simp at h
    rw [h]

theorem strictlyIncreasing_mergeTick (series : List Candle) (candle : Candle)
    (hs : strictlyIncreasing series)
    (hnew : ∀ last, series.getLast? = some last → last.time < candle.time) :
    strictlyIncreasing (mergeTick series candle) := by
  have happ : strictlyIncreasing (series ++ [candle]) := by
    unfold strictlyIncreasing
    rw [List.map_append, List.pairwise_append]
    refine ⟨hs, by simp, ?_⟩
    intro a ha b hb
    simp at hb
    obtain ⟨c, hc, rfl⟩ := List.mem_map.mp ha
    cases hl : series.getLast? with
    | none =>
      rw [List.getLast?_eq_none_iff] at hl
      rw [hl] at hc
      simp at hc
    | some last =>
      have h1 := time_le_last_of_strictlyIncreasing series last hs hl c hc
      have h2 := hnew last hl
      omega
  rw [mergeTick_eq_drop]
  unfold strictlyIncreasing at happ ⊢
  rw [List.map_drop]
  exact happ.sublist (List.drop_sublist _ _)

theorem length_formattedData (data : List KlineRow) :
    (formattedData data).length = data.length := by
  simp [formattedData]

/-! ## Sequences of updates (claims C1, C2) -/

theorem strictlyIncreasing_applyUpdate (chartData : ChartData) (u : Update)
    (hinv : ∀ symbol, strictlyIncreasing (chartData.get symbol))
    (hord : inOrder chartData u = true) :
    ∀ symbol, strictlyIncreasing ((applyUpdate chartData u).get symbol) := by
  intro symbol
  cases u with
  | tick sym payload =>
    cases payload with
    | malformed => exact hinv symbol
    | kline k =>
      simp only [applyUpdate, onmessage, tickUpdater, ChartData.get_set]
      split
      · apply strictlyIncreasing_mergeTick _ _ (hinv sym)
        intro last hlast
        simp only [inOrder, hlast, decide_eq_true_eq] at hord
        exact hord
      · exact hinv symbol
  | snapshot sym result =>
    cases result with
    | rows data =>
      simp only [applyUpdate, fetchHistoricalData, snapshotUpdater, ChartData.get_set]
      split
      · simpa [inOrder] using hord
      · exact hinv symbol
    | networkError => exact hinv symbol
    | invalidJson => exact hinv symbol
    | notAnArray => exact hinv symbol

theorem strictlyIncreasing_runUpdates (updates : List Update) (chartData : ChartData)
    (hinv : ∀ symbol, strictlyIncreasing (chartData.get symbol))
    (hord : allInOrder chartData updates = true) :
    ∀ symbol, strictlyIncreasing ((runUpdates chartData updates).get symbol) := by
  induction updates generalizing chartData with
  | nil => exact hinv
  | cons u us ih =>
    simp only [allInOrder, Bool.and_eq_true] at hord
    exact ih (applyUpdate chartData u)
      (strictlyIncreasing_applyUpdate chartData u hinv hord.1) hord.2

theorem length_applyUpdate_le (chartData : ChartData) (u : Update)
    (hinv : ∀ symbol, (chartData.get symbol).length ≤ 200)
    (hlim : withinLimit u = true) :
    ∀ symbol, ((applyUpdate chartData u).get symbol).length ≤ 200 := by
  intro symbol
  cases u with
  | tick sym payload =>
    cases payload with
    | malformed => exact hinv symbol
    | kline k =>
      simp only [applyUpdate, onmessage, tickUpdater, ChartData.get_set]
      split
      · exact length_mergeTick_le _ _
      · exact hinv symbol
  | snapshot sym result =>
    cases result with
    | rows data =>
      simp only [applyUpdate, fetchHistoricalData, snapshotUpdater, ChartData.get_set]
      split
      · rw [length_formattedData]
        simpa [withinLimit] using hlim
      · exact hinv symbol
    | networkError => exact hinv symbol
    | invalidJson => exact hinv symbol
    | notAnArray => exact hinv symbol

theorem length_runUpdates_le (updates : List Update) (chartData : ChartData)
    (hinv : ∀ symbol, (chartData.get symbol).length ≤ 200)
    (hlim : ∀ u ∈ updates, withinLimit u = true) :
    ∀ symbol, ((runUpdates chartData updates).get symbol).length ≤ 200 := by
  induction updates generalizing chartData with
  | nil => exact hinv
  | cons u us ih =>
    exact ih (applyUpdate chartData u)
      (length_applyUpdate_le chartData u hinv (hlim u (List.mem_cons_self u us)))
      (fun v hv => hlim v (List.mem_cons_of_mem u hv))

theorem strictlyIncreasing_initial (symbol : Sym) :
    strictlyIncreasing (ChartData.initial.get symbol) := by
  cases symbol <;> simp [ChartData.initial, ChartData.get, strictlyIncreasing]

theorem length_initial (symbol : Sym) : (ChartData.initial.get symbol).length ≤ 200 := by
  cases symbol <;> simp [ChartData.initial, ChartData.get]

/-- Claim C1 as stated fails: after the two stream messages of scenarios 1 and 2, both at
time 1000, the `ethusdt` series holds two entries with the same time. -/
theorem ordering_fails_on_repeated_time :
    (runUpdates ChartData.initial
      [Update.tick Sym.ethusdt (Payload.kline msgA),
        Update.tick Sym.ethusdt (Payload.kline msgA2)]).get Sym.ethusdt =
      [candleA, tickA] ∧
    ¬ strictlyIncreasing
      ((runUpdates ChartData.initial
        [Update.tick Sym.ethusdt (Payload.kline msgA),
          Update.tick Sym.ethusdt (Payload.kline msgA2)]).get Sym.ethusdt) := by
  decide

/-- Claim C1, amended.  Starting from the empty series, for every finite sequence of tick
merges and snapshot merges in which every tick is later than the last entry of the series
it is merged into (when that series is not empty) and the records of every snapshot are
strictly increasing in time, every symbol's resulting series has strictly increasing time
values by position. -/
theorem ordering_of_inOrder_updates (updates : List Update)
    (hord : allInOrder ChartData.initial updates = true) (symbol : Sym) :
    strictlyIncreasing ((runUpdates ChartData.initial updates).get symbol) :=
  strictlyIncreasing_runUpdates updates ChartData.initial strictlyIncreasing_initial hord
    symbol

/-- Claim C1, amended, at a snapshot followed by a later tick. -/
theorem ordering_of_inOrder_updates_witness :
    allInOrder ChartData.initial
      [Update.snapshot Sym.ethusdt (FetchResult.rows [rowA]),
        Update.tick Sym.ethusdt (Payload.kline msgB)] = true ∧
    strictlyIncreasing
      ((runUpdates ChartData.initial
        [Update.snapshot Sym.ethusdt (FetchResult.rows [rowA]),
          Update.tick Sym.ethusdt (Payload.kline msgB)]).get Sym.ethusdt) :=
  ⟨by decide, ordering_of_inOrder_updates _ (by decide) Sym.ethusdt⟩

set_option maxRecDepth 100000 in
/-- Claim C2 as stated fails: a snapshot response of 201 records leaves the `ethusdt`
series with 201 entries. -/
theorem length_exceeds_on_long_snapshot :
    longResponse.length = 201 ∧
    ((runUpdates ChartData.initial
      [Update.snapshot Sym.ethusdt (FetchResult.rows longResponse)]).get
        Sym.ethusdt).length = 201 ∧
    ¬ ((runUpdates ChartData.initial
      [Update.snapshot Sym.ethusdt (FetchResult.rows longResponse)]).get
        Sym.ethusdt).length ≤ 200 := by
  decide

/-- Claim C2, amended.  Starting from the empty series, for every finite sequence of tick
merges and snapshot merges in which every snapshot response has at most 200 records (the
limit the request asks for), every symbol's series has length at most 200. -/
theorem length_le_of_limited_snapshots (updates : List Update)
    (hlim : ∀ u ∈ updates, withinLimit u = true) (symbol : Sym) :
    ((runUpdates ChartData.initial updates).get symbol).length ≤ 200 :=
  length_runUpdates_le updates ChartData.initial length_initial hlim symbol

/-- Claim C2, amended, at a snapshot followed by two ticks. -/
theorem length_le_of_limited_snapshots_witness :
    (∀ u ∈ [Update.snapshot Sym.ethusdt (FetchResult.rows [rowA]),
        Update.tick Sym.ethusdt (Payload.kline msgB),
        Update.tick Sym.ethusdt (Payload.kline msgLate)], withinLimit u = true) ∧
    ((runUpdates ChartData.initial
      [Update.snapshot Sym.ethusdt (FetchResult.rows [rowA]),
        Update.tick Sym.ethusdt (Payload.kline msgB),
        Update.tick Sym.ethusdt (Payload.kline msgLate)]).get Sym.ethusdt).length ≤ 200 :=
  ⟨by decide, length_le_of_limited_snapshots _ (by decide) Sym.ethusdt⟩


/-! ## The snapshot merge (claims C6, C10) -/

/-- Claim C6 as stated fails: the `ethusdt` series holds entries at times 1000 and 2000,
the snapshot holds one record at time 1000, older than the last entry; after the snapshot
merge the entry at time 2000, newer than the snapshot, is gone. -/
theorem snapshot_removes_newer_entries :
    (chartAB.get Sym.ethusdt).getLast? = some candleB ∧
    (∀ item ∈ [rowA], item.item0 < candleB.time) ∧
    candleB ∈ chartAB.get Sym.ethusdt ∧
    candleB ∉ (fetchHistoricalData Sym.ethusdt (FetchResult.rows [rowA]) chartAB).get
      Sym.ethusdt ∧
    ¬ ((chartAB.get Sym.ethusdt).filter (fun candle => decide (1000 < candle.time))).Sublist
      ((fetchHistoricalData Sym.ethusdt (FetchResult.rows [rowA]) chartAB).get
        Sym.ethusdt) := by
  decide

/-- Claim C6, amended.  For every series and every snapshot, whatever its maximum time,
the series after the snapshot merge is exactly the formatted snapshot records in response
order and the other symbols keep their series; so no existing entry is carried over, and
an existing entry whose time is greater than every snapshot time is absent from the
result. -/
theorem snapshot_replaces_series (chartData : ChartData) (symbol : Sym)
    (data : List KlineRow) :
    (fetchHistoricalData symbol (FetchResult.rows data) chartData).get symbol =
      formattedData data ∧
    (∀ other, other ≠ symbol →
      (fetchHistoricalData symbol (FetchResult.rows data) chartData).get other =
        chartData.get other) ∧
    (∀ candle, (∀ item ∈ data, item.item0 < candle.time) →
      candle ∉ (fetchHistoricalData symbol (FetchResult.rows data) chartData).get symbol) := by
  have hself : (fetchHistoricalData symbol (FetchResult.rows data) chartData).get symbol =
      formattedData data := by
    simp only [fetchHistoricalData, snapshotUpdater, ChartData.get_set_self]
  refine ⟨hself, fun other h => ?_, fun candle hnewer hmem => ?_⟩
  · simp only [fetchHistoricalData, snapshotUpdater]
    exact ChartData.get_set_of_ne chartData symbol other _ h
  · rw [hself] at hmem
    obtain ⟨item, hitem, rfl⟩ := List.mem_map.mp hmem
    exact lt_irrefl _ (hnewer item hitem)

/-- Claim C6, amended, at the series with times 1000 and 2000 and a snapshot at 1000. -/
theorem snapshot_replaces_series_witness :
    (∀ item ∈ [rowA], item.item0 < candleB.time) ∧
    candleB ∉ (fetchHistoricalData Sym.ethusdt (FetchResult.rows [rowA]) chartAB).get
      Sym.ethusdt :=
  ⟨by decide,
    (snapshot_replaces_series chartAB Sym.ethusdt [rowA]).2.2 candleB (by decide)⟩

/-- Claim C10 as stated fails: a response with a record whose open price is the text
`abc` counts as a failed fetch in the specification, but the code does not throw on it;
the `ethusdt` series is replaced by one candle whose open price is `NaN`. -/
theorem unparsable_record_replaces_series :
    snapshotFails (FetchResult.rows [rowBad]) = true ∧
    (fetchHistoricalData Sym.ethusdt (FetchResult.rows [rowBad]) chartAB).get Sym.ethusdt =
      [{ time := 3000, «open» := JsNumber.nan, high := JsNumber.dec 11 0,
         low := JsNumber.dec 9 0, close := JsNumber.dec 105 (-1) }] ∧
    fetchHistoricalData Sym.ethusdt (FetchResult.rows [rowBad]) chartAB ≠ chartAB := by
  decide

/-- Claim C10, amended.  For every prior chart data and every snapshot fetch that ends in
a transport failure or in a body that is not a sequence of records, the chart data after
`fetchHistoricalData` equals the chart data before it.  A response that is a sequence of
records never counts as a failure: the series of the symbol is replaced by the formatted
records, and a record with a price field that cannot be parsed is stored with `NaN` in
that field. -/
theorem failed_fetch_leaves_chartData (prior : ChartData) (symbol : Sym)
    (result : FetchResult) :
    (result.throws = true → fetchHistoricalData symbol result prior = prior) ∧
    (∀ data, result = FetchResult.rows data →
      (fetchHistoricalData symbol result prior).get symbol = formattedData data ∧
      ∀ item ∈ data, hasUnparsableField item = true →
        formatRow item ∈ (fetchHistoricalData symbol result prior).get symbol ∧
        ((formatRow item).«open» = JsNumber.nan ∨ (formatRow item).high = JsNumber.nan ∨
          (formatRow item).low = JsNumber.nan ∨ (formatRow item).close = JsNumber.nan)) := by
  constructor
  · intro h
    cases result with
    | rows data => simp [FetchResult.throws] at h
    | networkError => rfl
    | invalidJson => rfl
    | notAnArray => rfl
  · intro data hres
    subst hres
    have hself : (fetchHistoricalData symbol (FetchResult.rows data) prior).get symbol =
        formattedData data := by
      simp only [fetchHistoricalData, snapshotUpdater, ChartData.get_set_self]
    refine ⟨hself, fun item hitem hbad => ⟨?_, ?_⟩⟩
    · rw [hself]
      exact List.mem_map_of_mem _ hitem
    · simp only [hasUnparsableField, Bool.or_eq_true, beq_iff_eq] at hbad
      simp only [formatRow]
      tauto

/-- Claim C10, amended, at a transport failure and at the response holding `rowBad`. -/
theorem failed_fetch_leaves_chartData_witness :
    (FetchResult.networkError.throws = true ∧
      fetchHistoricalData Sym.ethusdt FetchResult.networkError chartAB = chartAB) ∧
    (FetchResult.notAnArray.throws = true ∧
      fetchHistoricalData Sym.ethusdt FetchResult.notAnArray chartAB = chartAB) ∧
    (hasUnparsableField rowBad = true ∧
      formatRow rowBad ∈
        (fetchHistoricalData Sym.ethusdt (FetchResult.rows [rowBad]) chartAB).get
          Sym.ethusdt) :=
  ⟨⟨rfl, (failed_fetch_leaves_chartData chartAB Sym.ethusdt FetchResult.networkError).1 rfl⟩,
    ⟨rfl, (failed_fetch_leaves_chartData chartAB Sym.ethusdt FetchResult.notAnArray).1 rfl⟩,
    ⟨by decide,
      (((failed_fetch_leaves_chartData chartAB Sym.ethusdt (FetchResult.rows [rowBad])).2
        [rowBad] rfl).2 rowBad (by simp) (by decide)).1⟩⟩

/-! ## Target selection and stale events (claim C7) -/

theorem ws_generation_step (s : AppState) (e : Event)
    (hinv : ∀ conn, s.ws = some conn → conn.generation = s.generation) :
    ∀ conn, (step s e).ws = some conn → conn.generation = (step s e).generation := by
  intro conn hconn
  cases e with
  | mount =>
    simp only [step, selectTarget, Option.some.injEq] at hconn ⊢
    rw [← hconn]
  | handleCoinChange symbol =>
    simp only [step, selectTarget, Option.some.injEq] at hconn ⊢
    rw [← hconn]
  | handleIntervalChange interval =>
    simp only [step, selectTarget, Option.some.injEq] at hconn ⊢
    rw [← hconn]
  | fetchSettled generation result =>
    simp only [step] at hconn ⊢
    split at hconn <;> simp_all
  | message generation payload =>
    simp only [step] at hconn ⊢
    split at hconn
    · exact hinv conn hconn
    · split at hconn <;> simp_all

theorem ws_generation_run (events : List Event) (s : AppState)
    (hinv : ∀ conn, s.ws = some conn → conn.generation = s.generation) :
    ∀ conn, (run s events).ws = some conn → conn.generation = (run s events).generation := by
  induction events generalizing s with
  | nil => exact hinv
  | cons e es ih => exact ih (step s e) (ws_generation_step s e hinv)

theorem ws_generation_reachable (events : List Event) :
    ∀ conn, (run AppState.initial events).ws = some conn →
      conn.generation = (run AppState.initial events).generation :=
  ws_generation_run events AppState.initial (by simp [AppState.initial])

/-- Claim C7 as stated fails (scenario 5): after the mount, a switch to `bnbusdt` and at
once a switch to `dotusdt`, the fetch issued for `bnbusdt` belongs to generation 2 while
the current generation is 3; when it ends with one record it is not discarded, and the
`bnbusdt` series of the chart data changes from empty to that record. -/
theorem stale_fetch_not_discarded :
    (run AppState.initial
      [Event.mount, Event.handleCoinChange Sym.bnbusdt,
        Event.handleCoinChange Sym.dotusdt]).generation = 3 ∧
    (run AppState.initial
      [Event.mount, Event.handleCoinChange Sym.bnbusdt,
        Event.handleCoinChange Sym.dotusdt]).chartData = ChartData.initial ∧
    (step
      (run AppState.initial
        [Event.mount, Event.handleCoinChange Sym.bnbusdt,
          Event.handleCoinChange Sym.dotusdt])
      (Event.fetchSettled 2 (FetchResult.rows [rowA]))).chartData =
      ⟨[], [formatRow rowA], []⟩ ∧
    (step
      (run AppState.initial
        [Event.mount, Event.handleCoinChange Sym.bnbusdt,
          Event.handleCoinChange Sym.dotusdt])
      (Event.fetchSettled 2 (FetchResult.rows [rowA]))).chartData ≠
      (run AppState.initial
        [Event.mount, Event.handleCoinChange Sym.bnbusdt,
          Event.handleCoinChange Sym.dotusdt]).chartData := by
  decide

/-- Claim C7, amended.  In every state reached from the initial one, for every generation
older than the current one: a tick delivered on the connection of that generation leaves
the chart data unchanged (the connection was closed when the next target was selected);
a snapshot fetch of that generation that ends in a transport failure or a body that is
not a sequence of records leaves the chart data unchanged; and a snapshot fetch of that
generation that ends with records is not discarded: the series of the symbol it was
issued for is replaced by the formatted records, the other series being unchanged. -/
theorem stale_events_effect (events : List Event) (generation : Nat)
    (hstale : generation < (run AppState.initial events).generation) :
    (∀ payload,
      (step (run AppState.initial events) (Event.message generation payload)).chartData =
        (run AppState.initial events).chartData) ∧
    (∀ result, result.throws = true →
      (step (run AppState.initial events) (Event.fetchSettled generation result)).chartData =
        (run AppState.initial events).chartData) ∧
    (∀ data fetch,
      (run AppState.initial events).pending.find? (fun p => p.generation == generation) =
        some fetch →
      (step (run AppState.initial events)
        (Event.fetchSettled generation (FetchResult.rows data))).chartData =
        (run AppState.initial events).chartData.set fetch.symbol (formattedData data)) := by
  have hws := ws_generation_reachable events
  generalize run AppState.initial events = s at hstale hws ⊢
  refine ⟨fun payload => ?_, fun result hthrows => ?_, fun data fetch hfetch => ?_⟩
  · simp only [step]
    cases hc : s.ws with
    | none => rfl
    | some conn =>
      have hgen := hws conn hc
      have hne : ¬ conn.generation = generation := by omega
      simp [hne]
  · simp only [step]
    split
    · rfl
    · cases result with
      | rows data => simp [FetchResult.throws] at hthrows
      | networkError => rfl
      | invalidJson => rfl
      | notAnArray => rfl
  · simp only [step, hfetch, fetchHistoricalData, snapshotUpdater]

/-- Claim C7, amended, at scenario 5: the tick and the failed fetch of generation 2 change
nothing, the fetch of generation 2 that ends with `rowA` replaces the `bnbusdt` series. -/
theorem stale_events_effect_witness :
    2 < (run AppState.initial
      [Event.mount, Event.handleCoinChange Sym.bnbusdt,
        Event.handleCoinChange Sym.dotusdt]).generation ∧
    (step
      (run AppState.initial
        [Event.mount, Event.handleCoinChange Sym.bnbusdt,
          Event.handleCoinChange Sym.dotusdt])
      (Event.message 2 (Payload.kline msgA))).chartData =
      (run AppState.initial
        [Event.mount, Event.handleCoinChange Sym.bnbusdt,
          Event.handleCoinChange Sym.dotusdt]).chartData ∧
    (step
      (run AppState.initial
        [Event.mount, Event.handleCoinChange Sym.bnbusdt,
          Event.handleCoinChange Sym.dotusdt])
      (Event.fetchSettled 2 (FetchResult.rows [rowA]))).chartData =
      (run AppState.initial
        [Event.mount, Event.handleCoinChange Sym.bnbusdt,
          Event.handleCoinChange Sym.dotusdt]).chartData.set Sym.bnbusdt
        (formattedData [rowA]) :=
  ⟨by decide,
    (stale_events_effect
      [Event.mount, Event.handleCoinChange Sym.bnbusdt, Event.handleCoinChange Sym.dotusdt]
      2 (by decide)).1 (Payload.kline msgA),
    (stale_events_effect
      [Event.mount, Event.handleCoinChange Sym.bnbusdt, Event.handleCoinChange Sym.dotusdt]
      2 (by decide)).2.2 [rowA] ⟨Sym.bnbusdt, Interval.m1, 2⟩ (by decide)⟩


end BinanceMarketData
